import Mathlib

/-!
Verification development for the document-scope authorization engine and the
association manager of this repository.

The definitions below are shallow embeddings of the JavaScript sources:

* `policies/enforce-document-scope.js` — the scope comparator
  (`internals.compareScopes`), the scope verifier (`internals.verifyScope`,
  `internals.verifyScopeById`) and the pre/post enforcement hooks.
* the handler-helper source file — the association manager
  (`_addOne`, `_removeOne`, `_addMany`, `_setAssociation`,
  `_removeAssociation`).

JavaScript dynamic behaviour that the sources actually exercise is modelled
explicitly: `undefined` values, truthiness, `TypeError`s raised by property
access on `undefined`, and the exact semantics of `Array.prototype.reduce`
(the accumulator of the next callback call is the return value of the
previous one; a callback without a `return` statement yields `undefined`).
Fallible operations return `Except`.
-/

set_option autoImplicit false

namespace RestHapi

/-- Decidable equality for `Except`, used to evaluate the embedded
operations on concrete inputs by `decide`. -/
instance exceptDecEq {ε α : Type} [DecidableEq ε] [DecidableEq α] :
    DecidableEq (Except ε α) := fun x y =>
  match x, y with
  | .ok a, .ok b =>
    if h : a = b then .isTrue (by rw [h])
    else .isFalse (by intro hc; cases hc; exact h rfl)
  | .error a, .error b =>
    if h : a = b then .isTrue (by rw [h])
    else .isFalse (by intro hc; cases hc; exact h rfl)
  | .ok _, .error _ => .isFalse (by intro hc; cases hc)
  | .error _, .ok _ => .isFalse (by intro hc; cases hc)

/-- Errors that scope evaluation can raise: a JavaScript `TypeError`
(property access or method call on `undefined`), the `throw false` used by
`verifyScope` for strict-mode early exit, and thrown strings. -/
inductive JsError where
  | typeError
  | thrownFalse
  | thrownString (s : String)
  deriving DecidableEq, Repr

/-- The JavaScript values that flow through the accumulators of the
`reduce` calls in `internals.compareScopes`: `undefined`, booleans, numbers
(`Array.prototype.push` returns the new length) and arrays of strings. -/
inductive JsVal where
  | undefined
  | jbool (b : Bool)
  | jnum (n : Nat)
  | jarr (xs : List String)
  deriving DecidableEq, Repr

/-- JavaScript truthiness of a `JsVal`: `undefined` and `false` are falsy,
`0` is falsy, every array (even empty) is truthy. -/
def jsTruthy : JsVal → Bool
  | .undefined => false
  | .jbool b => b
  | .jnum n => n != 0
  | .jarr _ => true

/-- A scope-list element as seen at runtime: `some s` is a string token,
`none` is `undefined` (which `documentScope.concat(actionScope)` inserts
when the action-specific scope field is absent). -/
abbrev JsStr := Option String

/-- `Array.prototype.reduce` with an initial value over a scope list, in a
monad of JavaScript exceptions. -/
def jsReduce (f : JsVal → JsStr → Except JsError JsVal) (init : JsVal)
    (l : List JsStr) : Except JsError JsVal :=
  l.foldlM f init

/-- `Array.prototype.reduce` called on an arbitrary `JsVal`: calling
`.reduce` on anything but an array throws a `TypeError`. -/
def jvalReduce (f : JsVal → String → Except JsError JsVal) (init : JsVal) :
    JsVal → Except JsError JsVal
  | .jarr xs => xs.foldlM f init
  | _ => .error .typeError

/-- Callback of the first reduce in `compareScopes`
(`if (scopeValue[0] === '!') { scope.push(scopeValue.substr(1)); }`):
indexing `undefined` throws; `push` on a non-array accumulator throws; the
callback has no `return` statement, so it always yields `undefined`
(the pushed-into initial array is never the reduce's value for a non-empty
input and is never referenced again). -/
def forbiddenStep (acc : JsVal) (v : JsStr) : Except JsError JsVal :=
  match v with
  | none => .error .typeError
  | some s =>
    if s.data.head? = some '!' then
      match acc with
      | .jarr _ => .ok .undefined
      | _ => .error .typeError
    else .ok .undefined

/-- Callback of `fobiddenScope.reduce`:
`if (userScope.includes(scopeValue)) { return false; }` — otherwise the
callback returns `undefined`; the accumulator is never read. -/
def forbiddenCheckStep (userScope : List String) :
    JsVal → String → Except JsError JsVal :=
  fun _ v => .ok (if userScope.contains v then .jbool false else .undefined)

/-- Callback of the required-scope reduce
(`if (scopeValue[0] === '+') { return scope.push(scopeValue.substr(1)); }`):
`push` returns the new length; without the `if`, the callback yields
`undefined`. -/
def requiredStep (acc : JsVal) (v : JsStr) : Except JsError JsVal :=
  match v with
  | none => .error .typeError
  | some s =>
    if s.data.head? = some '+' then
      match acc with
      | .jarr xs => .ok (.jnum (xs.length + 1))
      | _ => .error .typeError
    else .ok .undefined

/-- Callback of `requiredScope.reduce`:
`if (!userScope.includes(scopeValue)) { return false; }` — otherwise
`undefined`. -/
def requiredCheckStep (userScope : List String) :
    JsVal → String → Except JsError JsVal :=
  fun _ v => .ok (if userScope.contains v then .undefined else .jbool false)

/-- `documentScope.filter(v => v[0] !== '!' && v[0] !== '+')`, which throws a
`TypeError` when it meets an `undefined` element. -/
def generalScopeOf : List JsStr → Except JsError (List String)
  | [] => .ok []
  | none :: _ => .error .typeError
  | some s :: rest => do
    let r ← generalScopeOf rest
    pure (if s.data.head? ≠ some '!' ∧ s.data.head? ≠ some '+' then s :: r else r)

/-- Callback of `generalScope.reduce`:
`if (userScope.includes(scopeValue)) { return true; }` — otherwise
`undefined`. -/
def generalCheckStep (userScope : List String) :
    JsVal → String → Except JsError JsVal :=
  fun _ v => .ok (if userScope.contains v then .jbool true else .undefined)

/-- Shallow embedding of `internals.compareScopes(userScope, documentScope)`
from `policies/enforce-document-scope.js`, with the exact `reduce`
semantics of the source (the callbacks do not return their accumulator). -/
def compareScopes (userScope : List String) (documentScope : List JsStr) :
    Except JsError Bool := do
  let fobiddenScope ← jsReduce forbiddenStep (.jarr []) documentScope
  let scopeSatisfied ← jvalReduce (forbiddenCheckStep userScope) (.jbool true) fobiddenScope
  if !jsTruthy scopeSatisfied then
    return false
  let requiredScope ← jsReduce requiredStep (.jarr []) documentScope
  let scopeSatisfied2 ← jvalReduce (requiredCheckStep userScope) (.jbool true) requiredScope
  if !jsTruthy scopeSatisfied2 then
    return false
  let generalScope ← generalScopeOf documentScope
  let scopeSatisfied3 ← generalScope.foldlM (generalCheckStep userScope) (.jbool false)
  if !jsTruthy scopeSatisfied3 then
    return false
  return true

/-- `compareScopes` applied to a document scope list made of plain string
tokens (the shape the claims quantify over). -/
def compareScopesTokens (userScope : List String) (documentScope : List String) :
    Except JsError Bool :=
  compareScopes userScope (documentScope.map some)

example : compareScopesTokens ["read"] ["read"] = .error .typeError := by decide

example : compareScopesTokens ["read"] [] = .ok false := by decide

/-- A document's `scope` policy object: the global `scope` list plus the four
action-specific lists; each field may be absent (`undefined`). -/
structure ScopePolicy where
  scope : Option (List String)
  readScope : Option (List String)
  updateScope : Option (List String)
  deleteScope : Option (List String)
  associateScope : Option (List String)
  deriving DecidableEq, Repr

/-- A document as seen by the scope verifier: its `_id` (already in string
form) and its optional scope policy. `none` stands for an absent or empty
(`_.isEmpty`) `scope` object. -/
structure SDoc where
  docId : String
  scope : Option ScopePolicy
  deriving DecidableEq, Repr

/-- The four action strings dispatched by the `switch` in
`internals.verifyScope` (the `default: throw "Invalid method type."` branch
is unreachable for the actions the hooks pass in). -/
inductive Action where
  | read
  | update
  | delete
  | associate
  deriving DecidableEq, Repr

/-- The `switch (action)` of `internals.verifyScope`: select the
action-specific scope field (which may be `undefined`). -/
def actionScopeOf (p : ScopePolicy) : Action → Option (List String)
  | .read => p.readScope
  | .update => p.updateScope
  | .delete => p.deleteScope
  | .associate => p.associateScope

/-- Lines 177–183 of `policies/enforce-document-scope.js`: starting from
`documentScope = document.scope.scope || []`,
`if (documentScope && documentScope[0]) documentScope = documentScope.concat(actionScope);
else if (actionScope) documentScope = actionScope;`.
`documentScope` is always an array here, so the first condition is the
truthiness of its first element (`""` is falsy); `concat(undefined)`
appends `undefined` as an element; an array (even empty) is truthy, while
an absent action scope is falsy. -/
def effectiveScope (g : List String) (a : Option (List String)) : List JsStr :=
  match g with
  | g0 :: _ =>
    if g0 ≠ "" then
      g.map some ++ (match a with | some l => l.map some | none => [none])
    else
      match a with
      | some l => l.map some
      | none => g.map some
  | [] =>
    match a with
    | some l => l.map some
    | none => []

/-- The effective scope list the verifier computes for one document and one
action (`[]` when the document has no scope policy object). -/
def docEffectiveScope (d : SDoc) (action : Action) : List JsStr :=
  match d.scope with
  | none => []
  | some p => effectiveScope (p.scope.getD []) (actionScopeOf p action)

/-- The value `internals.verifyScope` returns:
`{ authorized: ..., unauthorizedDocs: ... }`. -/
structure VerifyResult where
  authorized : Bool
  unauthorizedDocs : List SDoc
  deriving DecidableEq, Repr

/-- The `documents.filter(...)` loop of `internals.verifyScope`, with the
`authorized` closure variable and the accumulated `unauthorizedDocs`
threaded explicitly. The filter callback can throw: `throw false` for the
strict-mode early exit (caught by the surrounding `catch`, which returns
`{ authorized, unauthorizedDocs: [] }`), and any `TypeError` coming out of
`compareScopes` (re-thrown by that `catch`). -/
def verifyScopeGo (userScope : List String) (action : Action)
    (enableDocumentScopeFail : Bool) :
    List SDoc → Bool → List SDoc → Except JsError VerifyResult
  | [], authorized, unauth => .ok ⟨authorized, unauth⟩
  | d :: rest, authorized, unauth =>
    match d.scope with
    | none => verifyScopeGo userScope action enableDocumentScopeFail rest authorized unauth
    | some p =>
      let ds := effectiveScope (p.scope.getD []) (actionScopeOf p action)
      if ds.isEmpty then
        verifyScopeGo userScope action enableDocumentScopeFail rest authorized unauth
      else
        match compareScopes userScope ds with
        | .error e => .error e
        | .ok true =>
          verifyScopeGo userScope action enableDocumentScopeFail rest authorized unauth
        | .ok false =>
          if enableDocumentScopeFail then .ok ⟨false, []⟩
          else verifyScopeGo userScope action enableDocumentScopeFail rest false (unauth ++ [d])

/-- Shallow embedding of
`internals.verifyScope(model, documents, action, userScope, Log)`.
The global configuration flag `config.enableDocumentScopeFail` is passed
explicitly. -/
def verifyScope (userScope : List String) (documents : List SDoc)
    (action : Action) (enableDocumentScopeFail : Bool) :
    Except JsError VerifyResult :=
  verifyScopeGo userScope action enableDocumentScopeFail documents true []

/-- Shallow embedding of
`internals.verifyScopeById(model, documentIds, action, userScope, Log)`:
`model.find({_id: {$in: documentIds}}, 'scope')` selects the stored
documents whose id is among `documentIds` (in store order), then delegates
to `verifyScope`. -/
def verifyScopeById (modelDocs : List SDoc) (documentIds : List String)
    (action : Action) (userScope : List String)
    (enableDocumentScopeFail : Bool) : Except JsError VerifyResult :=
  verifyScope userScope (modelDocs.filter (fun d => documentIds.contains d.docId))
    action enableDocumentScopeFail

/-- An inbound request as seen by the pre-enforcement hook: the HTTP
method, the optional `_id` and `ownerId` route params, and (for bulk
deletes) the payload, a list of items carrying an `_id` each, modelled by
those ids. -/
structure PreRequest where
  method : String
  paramsId : Option String
  paramsOwnerId : Option String
  payload : List String
  deriving DecidableEq, Repr

/-- How `enforceDocumentScopePreForModel` ends: `next(null, true)` with the
(possibly filtered) payload, `next(Boom.forbidden(...), false)`, or
`next(Boom.badImplementation(...), false)` from the promise `.catch`. -/
inductive PreOutcome where
  | proceed (payload : List String)
  | forbidden
  | badImpl
  deriving DecidableEq, Repr

/-- The action/ids derivation at the top of
`enforceDocumentScopePreForModel`: update for an id-targeted `put`,
read/associate for an `ownerId`-targeted request, delete for `delete`
(bulk ids from the payload when no `_id` param); anything else skips
verification. -/
def preAction (req : PreRequest) : Option (Action × List String) :=
  match req.paramsId, req.method == "put" with
  | some i, true => some (.update, [i])
  | _, _ =>
    match req.paramsOwnerId with
    | some o => some (if req.method == "get" then .read else .associate, [o])
    | none =>
      if req.method == "delete" then
        match req.paramsId with
        | some i => some (.delete, [i])
        | none => some (.delete, req.payload)
      else none

/-- Shallow embedding of `enforceDocumentScopePreForModel(request, reply, next)`:
derive the action and target ids, run `verifyScopeById`, and either
proceed, silently drop unauthorized ids from a lenient bulk delete,
reject with `forbidden`, or (when scope evaluation itself throws) reject
with `badImplementation` via the `.catch`. -/
def enforceDocumentScopePre (modelDocs : List SDoc) (req : PreRequest)
    (userScope : List String) (enableDocumentScopeFail : Bool) : PreOutcome :=
  match preAction req with
  | none => .proceed req.payload
  | some (action, ids) =>
    match verifyScopeById modelDocs ids action userScope enableDocumentScopeFail with
    | .error _ => .badImpl
    | .ok result =>
      if result.authorized then .proceed req.payload
      else if action = .delete ∧ ¬enableDocumentScopeFail then
        .proceed (req.payload.filter
          (fun pid => ¬(result.unauthorizedDocs.map (·.docId)).contains pid))
      else .forbidden

/-- The response body the post-enforcement hook inspects: a single document
(`request.params._id` present, `request.response.source`) or a list
(`request.response.source.docs`). -/
inductive ResponseSource where
  | single (d : SDoc)
  | docList (docs : List SDoc)
  deriving DecidableEq, Repr

/-- An element of the redacted list the lenient post-hook writes back:
either the original document or the
`{ "error": "Insufficient document scope." }` placeholder. -/
inductive RedactedDoc where
  | real (d : SDoc)
  | scopeErrorPlaceholder
  deriving DecidableEq, Repr

/-- How `enforceDocumentScopePostForModel` ends: pass the response through,
pass it through with the list redacted in place, reject with `forbidden`,
or propagate an exception thrown synchronously by `verifyScope` (the hook
has no try/catch around it). -/
inductive PostOutcome where
  | proceedUnchanged
  | proceedRedacted (docs : List RedactedDoc)
  | forbidden
  | thrown (e : JsError)
  deriving DecidableEq, Repr

/-- Shallow embedding of `enforceDocumentScopePostForModel(request, reply, next)`
for a request with the given method, caller scope and response source (a
single document corresponds to a request with an `_id` param, a list to a
collection read). -/
def enforceDocumentScopePost (method : String) (source : ResponseSource)
    (userScope : List String) (enableDocumentScopeFail : Bool) : PostOutcome :=
  if method == "get" then
    match source with
    | .single d =>
      match verifyScope userScope [d] .read enableDocumentScopeFail with
      | .error e => .thrown e
      | .ok result =>
        if result.authorized then .proceedUnchanged else .forbidden
    | .docList docs =>
      match verifyScope userScope docs .read enableDocumentScopeFail with
      | .error e => .thrown e
      | .ok result =>
        if result.authorized then .proceedUnchanged
        else if enableDocumentScopeFail then .forbidden
        else
          .proceedRedacted (docs.map (fun d =>
            if (result.unauthorizedDocs.map (·.docId)).contains d.docId then
              .scopeErrorPlaceholder
            else .real d))
  else .proceedUnchanged

/-- An association descriptor from `routeOptions.associations`: its `type`
string, the target `model` name, the `foreignField` (ONE_MANY), the
`include.as` name used to locate the reciprocal array on the child
(`none` models an absent `include`), and the optional `linkingModel`. -/
structure AssocDef where
  atype : String
  model : String
  foreignField : Option String
  includeAs : Option String
  linkingModel : Option String
  deriving DecidableEq, Repr

/-- A mongoose model as the association manager consumes it: its
`modelName` and its named association descriptors. -/
structure ModelDef where
  modelName : String
  associations : List (String × AssocDef)
  deriving DecidableEq, Repr

/-- A MANY_MANY linking entry embedded on a document's association array:
its own `_id` (assigned when the entry is first pushed and retained across
updates), the referenced partner document's id (stored in JS under the
partner model's name), and the extra linking-model fields. -/
structure LinkEntry where
  lid : Nat
  ref : String
  fields : List (String × String)
  deriving DecidableEq, Repr

/-- A stored document as the association manager sees it: its id, its
embedded association arrays keyed by association name (an absent key is
JavaScript `undefined`), and its ONE_MANY foreign-key fields. -/
structure ADoc where
  aid : String
  arrays : List (String × List LinkEntry)
  fkeys : List (String × Option String)
  deriving DecidableEq, Repr

/-- The persistent store: each model name maps to the documents of its
collection. -/
abbrev DataBase := List (String × List ADoc)

/-- `model.findOne({'_id': id})`. -/
def dbFind (db : DataBase) (modelName : String) (id : String) : Option ADoc :=
  (db.lookup modelName).bind (fun docs => docs.find? (fun d => d.aid == id))

/-- Persist a saved document back into its collection (replace by id). -/
def dbSave (db : DataBase) (modelName : String) (d : ADoc) : DataBase :=
  db.map (fun c =>
    if c.1 == modelName then
      (c.1, c.2.map (fun old => if old.aid == d.aid then d else old))
    else c)

/-- The state threaded through association operations: the store plus the
counter from which fresh linking-entry `_id`s are drawn when an entry is
pushed. -/
structure AState where
  db : DataBase
  nextId : Nat
  deriving DecidableEq, Repr

/-- `document.save()` with an explicit failure oracle `failSaves` (the
(model, id) pairs whose save rejects): on success the in-memory document is
persisted, on failure the store is unchanged. Returns whether the save
promise fulfilled. -/
def trySave (failSaves : List (String × String)) (modelName : String)
    (d : ADoc) (st : AState) : Bool × AState :=
  if failSaves.contains (modelName, d.aid) then (false, st)
  else (true, { st with db := dbSave st.db modelName d })

/-- The payload handed to `_setAssociation`/`_addMany`: either an array of
plain child-id strings, or an array of records each carrying a `childId`
plus extra linking-model fields. -/
inductive APayload where
  | ids (l : List String)
  | recs (l : List (String × List (String × String)))
  deriving DecidableEq, Repr

/-- How the `_setAssociation`/`_removeAssociation` deferred rejects:
a `TypeError` from property access on `undefined`, a rejection with a
string (`"Child object not found."`, `"Association type incorrectly
defined."`, the `"... association does not exist."` throw), or a rejected
save propagated by the final `.catch`. -/
inductive AErr where
  | typeError
  | rejected (msg : String)
  | saveFail
  deriving DecidableEq, Repr

/-- Replace (or create) a named association array on a document. -/
def setArray (d : ADoc) (name : String) (arr : List LinkEntry) : ADoc :=
  { d with arrays :=
      if (d.arrays.lookup name).isSome then
        d.arrays.map (fun c => if c.1 == name then (c.1, arr) else c)
      else d.arrays ++ [(name, arr)] }

/-- Set a foreign-key field on a document. -/
def setFkey (d : ADoc) (name : String) (v : Option String) : ADoc :=
  { d with fkeys :=
      if (d.fkeys.lookup name).isSome then
        d.fkeys.map (fun c => if c.1 == name then (c.1, v) else c)
      else d.fkeys ++ [(name, v)] }

/-- The `for (var childAssociationKey in childAssociations)` scan of
`_setAssociation`: the last descriptor whose `model` matches the owner's
model name AND whose `type` is `MANY_MANY` wins (the loop keeps
overwriting `childAssociation`). -/
def findChildAssociationSet (childAssociations : List (String × AssocDef))
    (ownerModelName : String) : Option AssocDef :=
  childAssociations.foldl
    (fun found c =>
      if c.2.model == ownerModelName && c.2.atype == "MANY_MANY" then some c.2 else found)
    none

/-- The corresponding scan in `_removeAssociation`, which matches on the
`model` name only (no `type` condition). -/
def findChildAssociationRemove (childAssociations : List (String × AssocDef))
    (ownerModelName : String) : Option AssocDef :=
  childAssociations.foldl
    (fun found c => if c.2.model == ownerModelName then some c.2 else found)
    none

/-- Shallow embedding of
`_setAssociation(ownerModel, ownerObject, childModel, childId, associationName, payload, Log)`.
`ownerObject` is the caller's in-memory owner document; it is returned
(possibly mutated) alongside the deferred's outcome and the updated state,
because `_addMany` keeps reusing the same object across links. The final
`Q.all(ownerObject.save(), childObject.save())` is modelled as the source
behaves: both saves execute, but `Q.all` receives the child save only as an
ignored extra argument, so the deferred settles on the owner save alone. -/
def setAssociation (ownerModel : ModelDef) (ownerObject : ADoc)
    (childModel : ModelDef) (childId : String) (associationName : String)
    (payload : APayload) (failSaves : List (String × String)) (st : AState) :
    Except AErr Unit × ADoc × AState :=
  match dbFind st.db childModel.modelName childId with
  | none => (.error (.rejected "Child object not found."), ownerObject, st)
  | some childObject =>
    match ownerModel.associations.lookup associationName with
    | none => (.error .typeError, ownerObject, st)
    | some association =>
      if association.atype == "ONE_MANY" then
        let f := association.foreignField.getD "undefined"
        let childObject := setFkey childObject f (some ownerObject.aid)
        let (ok, st) := trySave failSaves childModel.modelName childObject st
        (if ok then .ok () else .error .saveFail, ownerObject, st)
      else if association.atype == "MANY_MANY" then
        -- normalize the payload for this child
        let fieldsResult : Except AErr (List (String × String) × Bool) :=
          match payload with
          | .ids (_ :: _) => .ok ([], false)
          | .ids [] => .error .typeError
          | .recs l =>
            match l.filter (fun r => r.1 == childObject.aid) with
            | [] => .error .typeError
            | (_, fs) :: _ => .ok (fs, true)
        match fieldsResult with
        | .error e => (.error e, ownerObject, st)
        | .ok (payloadFields, extraFields) =>
          match ownerObject.arrays.lookup associationName with
          | none => (.error .typeError, ownerObject, st)
          | some ownerArr =>
            let duplicate := (ownerArr.filter (fun e => e.ref == childId)).head?
            let step1 : ADoc × AState :=
              match duplicate with
              | none =>
                (setArray ownerObject associationName
                   (ownerArr ++ [⟨st.nextId, childObject.aid, payloadFields⟩]),
                 { st with nextId := st.nextId + 1 })
              | some dup =>
                if extraFields then
                  -- the element at `indexOf dup` is `dup` itself, so the
                  -- retained `_id` is `dup.lid`
                  (setArray ownerObject associationName
                     (ownerArr.set (ownerArr.indexOf dup)
                        ⟨dup.lid, childObject.aid, payloadFields⟩),
                   st)
                else (ownerObject, st)
            let ownerObject := step1.1
            let st := step1.2
            match findChildAssociationSet childModel.associations ownerModel.modelName with
            | none => (.error .typeError, ownerObject, st)
            | some childAssociation =>
              match childAssociation.includeAs with
              | none => (.error .typeError, ownerObject, st)
              | some childAssociationName =>
                match childObject.arrays.lookup childAssociationName with
                | none =>
                  (.error (.rejected (childAssociationName ++ " association does not exist.")),
                   ownerObject, st)
                | some childArr =>
                  let childDup := (childArr.filter (fun e => e.ref == ownerObject.aid)).head?
                  let step2 : ADoc × AState :=
                    match childDup with
                    | none =>
                      (setArray childObject childAssociationName
                         (childArr ++ [⟨st.nextId, ownerObject.aid, payloadFields⟩]),
                       { st with nextId := st.nextId + 1 })
                    | some dup =>
                      (setArray childObject childAssociationName
                         (childArr.set (childArr.indexOf dup)
                            ⟨dup.lid, ownerObject.aid, payloadFields⟩),
                       st)
                  let childObject := step2.1
                  let st := step2.2
                  let (ok1, st) := trySave failSaves ownerModel.modelName ownerObject st
                  let (_ok2, st) := trySave failSaves childModel.modelName childObject st
                  (if ok1 then .ok () else .error .saveFail, ownerObject, st)
      else (.error (.rejected "Association type incorrectly defined."), ownerObject, st)

/-- Shallow embedding of
`_removeAssociation(ownerModel, ownerObject, childModel, childId, associationName, Log)`.
As in `_setAssociation`, both saves execute but the deferred settles on the
owner save alone. -/
def removeAssociation (ownerModel : ModelDef) (ownerObject : ADoc)
    (childModel : ModelDef) (childId : String) (associationName : String)
    (failSaves : List (String × String)) (st : AState) :
    Except AErr Unit × ADoc × AState :=
  match dbFind st.db childModel.modelName childId with
  | none => (.error (.rejected "Child object not found."), ownerObject, st)
  | some childObject =>
    match ownerModel.associations.lookup associationName with
    | none => (.error .typeError, ownerObject, st)
    | some association =>
      if association.atype == "ONE_MANY" then
        let f := association.foreignField.getD "undefined"
        let childObject := setFkey childObject f none
        let (ok, st) := trySave failSaves childModel.modelName childObject st
        (if ok then .ok () else .error .saveFail, ownerObject, st)
      else if association.atype == "MANY_MANY" then
        match ownerObject.arrays.lookup associationName with
        | none => (.error .typeError, ownerObject, st)
        | some ownerArr =>
          let deleteChild := (ownerArr.filter (fun e => e.ref == childObject.aid)).head?
          let ownerObject :=
            match deleteChild with
            | none => ownerObject
            | some dc =>
              setArray ownerObject associationName (ownerArr.eraseIdx (ownerArr.indexOf dc))
          match findChildAssociationRemove childModel.associations ownerModel.modelName with
          | none => (.error .typeError, ownerObject, st)
          | some childAssociation =>
            match childAssociation.includeAs with
            | none => (.error .typeError, ownerObject, st)
            | some childAssociationName =>
              match childObject.arrays.lookup childAssociationName with
              | none => (.error .typeError, ownerObject, st)
              | some childArr =>
                let deleteOwner := (childArr.filter (fun e => e.ref == ownerObject.aid)).head?
                let childObject :=
                  match deleteOwner with
                  | none => childObject
                  | some dOwn =>
                    setArray childObject childAssociationName
                      (childArr.eraseIdx (childArr.indexOf dOwn))
                let (ok1, st) := trySave failSaves ownerModel.modelName ownerObject st
                let (_ok2, st) := trySave failSaves childModel.modelName childObject st
                (if ok1 then .ok () else .error .saveFail, ownerObject, st)
      else (.error (.rejected "Association type incorrectly defined."), ownerObject, st)

/-- The error kinds of the Error-Reporting collaborator relevant here. -/
inductive ErrKind where
  | notFound
  | gatewayTimeout
  | badRequest
  deriving DecidableEq, Repr

/-- How an association-manager operation's returned promise ends:
fulfilled with `true`, fulfilled with `undefined`, rejected with a typed
error, or never settled (`_addMany`'s deferred is abandoned when a link
fails). -/
inductive CrudRes where
  | resolvedTrue
  | resolvedUndef
  | raised (k : ErrKind)
  | hang
  deriving DecidableEq, Repr

/-- Modelled from the spec: `error-helper.js` is not among the sources. Per
the spec's external-interface contract, the Error-Reporting collaborator's
`raise(kind, message)` "raises a typed failure", so
`errorHelper.handleError` always throws the typed error (it never returns
normally), turning the surrounding promise chain's result into a rejection
of that kind. -/
def handleError (kind : ErrKind) : CrudRes :=
  .raised kind

/-- Shallow embedding of
`_addOne(ownerModel, ownerId, childModel, childId, associationName, payload, Log)`:
load the owner (not-found error if absent), wrap the payload as
`[{childId, ...extraFields}]`, run `_setAssociation`, resolve `true` on
success and raise `GATEWAY_TIMEOUT` when the deferred rejects. -/
def addOne (ownerModel childModel : ModelDef) (ownerId childId associationName : String)
    (payload : Option (List (String × String)))
    (failSaves : List (String × String)) (st : AState) : CrudRes × AState :=
  match dbFind st.db ownerModel.modelName ownerId with
  | none => (handleError .notFound, st)
  | some ownerObject =>
    let pl := APayload.recs [(childId, payload.getD [])]
    let (res, _owner, st) :=
      setAssociation ownerModel ownerObject childModel childId associationName pl failSaves st
    match res with
    | .ok _ => (.resolvedTrue, st)
    | .error _ => (handleError .gatewayTimeout, st)

/-- Shallow embedding of
`_removeOne(ownerModel, ownerId, childModel, childId, associationName, Log)`.
The source does NOT return the `_removeAssociation(...)` promise: its
effects run, but the outer `.then` callback returns `undefined`, so
`_removeOne` fulfills (with `undefined`) whenever the owner was found,
regardless of how the removal went. -/
def removeOne (ownerModel childModel : ModelDef)
    (ownerId childId associationName : String)
    (failSaves : List (String × String)) (st : AState) : CrudRes × AState :=
  match dbFind st.db ownerModel.modelName ownerId with
  | none => (handleError .notFound, st)
  | some ownerObject =>
    let (_res, _owner, st) :=
      removeAssociation ownerModel ownerObject childModel childId associationName failSaves st
    (.resolvedUndef, st)

/-- The sequential `promise_chain` of `_addMany`: one `_setAssociation` per
child id, in input order, against the one shared in-memory owner object.
When a link's promise rejects, the `.catch` inside `promise_link` calls
`errorHelper.handleError` (which throws) and the link's deferred is never
settled, so the chain — and `_addMany`'s promise — never settles: the
remaining children are not processed and the operation hangs. -/
def addManyGo (ownerModel childModel : ModelDef) (associationName : String)
    (payload : APayload) (failSaves : List (String × String)) :
    List String → ADoc → AState → CrudRes × AState
  | [], _, st => (.resolvedTrue, st)
  | cid :: rest, ownerObject, st =>
    let (res, ownerObject, st) :=
      setAssociation ownerModel ownerObject childModel cid associationName payload failSaves st
    match res with
    | .ok _ => addManyGo ownerModel childModel associationName payload failSaves rest ownerObject st
    | .error _ => (.hang, st)

/-- Shallow embedding of
`_addMany(ownerModel, ownerId, childModel, associationName, payload, Log)`:
load the owner once, normalize the payload to child ids (`payload` itself
when it is an array of strings, otherwise `payload.map(o => o.childId)`),
then chain the links sequentially against the shared owner object. -/
def addMany (ownerModel childModel : ModelDef) (ownerId associationName : String)
    (payload : APayload) (failSaves : List (String × String)) (st : AState) :
    CrudRes × AState :=
  match dbFind st.db ownerModel.modelName ownerId with
  | none => (handleError .notFound, st)
  | some ownerObject =>
    let childIds :=
      match payload with
      | .ids l => l
      | .recs l => l.map (·.1)
    addManyGo ownerModel childModel associationName payload failSaves childIds ownerObject st

/-! Concrete fixtures: an owner collection `"owner"` with a MANY_MANY
association `"children"` to the collection `"child"`, whose reciprocal
association is stored on each child under `"owners"`. -/

/-- Owner-side model: one MANY_MANY association `"children"` targeting
model `"child"`, included on the child as `"owners"`. -/
def ownerModelEx : ModelDef :=
  ⟨"owner", [("children", ⟨"MANY_MANY", "child", none, some "children", some "link"⟩)]⟩

/-- Child-side model: the reciprocal MANY_MANY association `"owners"`
targeting model `"owner"`, with `include.as = "owners"`. -/
def childModelEx : ModelDef :=
  ⟨"child", [("owners", ⟨"MANY_MANY", "owner", none, some "owners", some "link"⟩)]⟩

/-- An owner document with an empty `"children"` association array. -/
def ownerDocEx (oid : String) : ADoc := ⟨oid, [("children", [])], []⟩

/-- A child document with an empty `"owners"` association array. -/
def childDocEx (cid : String) : ADoc := ⟨cid, [("owners", [])], []⟩

/-- A two-collection store holding one owner and the given children. -/
def stateEx (oid : String) (cids : List String) (n : Nat) : AState :=
  ⟨[("owner", [ownerDocEx oid]), ("child", cids.map childDocEx)], n⟩

example :
    addOne ownerModelEx childModelEx "o1" "c1" "children" (some [("f", "v")]) []
        (stateEx "o1" ["c1"] 7) =
      (.resolvedTrue,
       ⟨[("owner", [⟨"o1", [("children", [⟨7, "c1", [("f", "v")]⟩])], []⟩]),
         ("child", [⟨"c1", [("owners", [⟨8, "o1", [("f", "v")]⟩])], []⟩])], 9⟩) := by
  decide

/-! ### Supporting lemmas for the scope comparator -/

/-- Once the accumulator of the first `reduce` of `compareScopes` has become
`undefined` (which happens right after the first element), the rest of the
fold yields `undefined` or throws a `TypeError`. -/
theorem foldlM_forbiddenStep_undefined (l : List JsStr) :
    l.foldlM forbiddenStep JsVal.undefined = .ok .undefined ∨
      l.foldlM forbiddenStep JsVal.undefined = .error .typeError := by
  induction l with
  | nil => exact Or.inl rfl
  | cons v rest ih =>
    cases v with
    | none => exact Or.inr rfl
    | some s =>
      by_cases h : s.data.head? = some '!'
      · exact Or.inr (by simp [List.foldlM, forbiddenStep, h, Bind.bind, Except.bind])
      · rcases ih with ih | ih <;>
          simp [List.foldlM, forbiddenStep, h, Bind.bind, Except.bind, ih]

/-- The first callback call of the forbidden-scope `reduce` (accumulator is
the initial `[]`) returns `undefined` for any string element. -/
theorem forbiddenStep_init (s : String) :
    forbiddenStep (.jarr []) (some s) = .ok .undefined := by
  simp [forbiddenStep]

/-! ### Claim theorems -/

/-- **C1.** The claim says `compare(S, P)` evaluates the forbidden, required
and general checks in order and returns their verdict. It does not: the
`reduce` callbacks in `internals.compareScopes` never return their
accumulator, so `fobiddenScope` is `undefined` for every non-empty document
scope list and `fobiddenScope.reduce(...)` (or the first callback call with
an `undefined` accumulator) throws a `TypeError` — for EVERY caller scope
set and every non-empty document scope list, `compareScopes` throws instead
of returning a boolean. -/
theorem compareScopes_nonempty_always_typeError (S : List String) (v : String)
    (P : List String) :
    compareScopesTokens S (v :: P) = .error .typeError := by
  rcases foldlM_forbiddenStep_undefined (P.map some) with h | h <;>
    simp [compareScopesTokens, compareScopes, jsReduce, List.foldlM, forbiddenStep_init,
      h, jvalReduce, Bind.bind, Except.bind]

/-- A scope policy whose global list is `["admin"]`: a caller without
`"admin"` should fail the general check on the resulting document. -/
def adminPolicy : ScopePolicy := ⟨some ["admin"], none, none, none, none⟩

/-- A document guarded by `adminPolicy`. -/
def adminDoc : SDoc := ⟨"d1", some adminPolicy⟩

/-- **C10.** The claim (read off the `throw false` / `catch` machinery of
`internals.verifyScope`) says strict-mode verification returns
`{authorized: false, unauthorizedDocs: []}` when some document fails its
scope check. The strict-mode early exit is dead code: `compareScopes`
throws a `TypeError` before it can report an unauthorized document, the
`catch` re-throws anything that is not the literal `false`, and
`verifyScope` propagates the `TypeError` instead of returning the
structured result. -/
theorem verifyScope_strict_mode_throws_not_structured :
    verifyScope [] [adminDoc] .read true = .error .typeError ∧
      verifyScope [] [adminDoc] .read true ≠
        .ok { authorized := false, unauthorizedDocs := [] } := by
  decide

/-- The three-document store of the bulk-delete scenario: `A` and `C`
carry no scope policy, `B` requires `"admin"`. -/
def bulkDocs : List SDoc := [⟨"A", none⟩, ⟨"B", some adminPolicy⟩, ⟨"C", none⟩]

/-- A bulk delete request targeting ids `A`, `B`, `C` through its payload. -/
def bulkDeleteReq : PreRequest := ⟨"delete", none, none, ["A", "B", "C"]⟩

/-- **C3.** For a bulk delete of `[A, B, C]` where only `B` fails the scope
check, the claim says lenient mode drops `B` and proceeds with `[A, C]`,
and strict mode rejects with `FORBIDDEN`. Instead, evaluating `B`'s scope
throws a `TypeError` inside `verifyScope`, the promise chain's `.catch`
converts it to `Boom.badImplementation`, and the request is rejected with
an internal error in BOTH modes: the payload is never filtered and no
forbidden error is produced. -/
theorem pre_bulk_delete_rejects_internal_error_both_modes :
    enforceDocumentScopePre bulkDocs bulkDeleteReq [] false = .badImpl ∧
      enforceDocumentScopePre bulkDocs bulkDeleteReq [] true = .badImpl ∧
      enforceDocumentScopePre bulkDocs bulkDeleteReq [] false ≠ .proceed ["A", "C"] ∧
      enforceDocumentScopePre bulkDocs bulkDeleteReq [] true ≠ .forbidden := by
  decide

/-- An unguarded document for the list-read scenario. -/
def openDoc : SDoc := ⟨"d0", none⟩

/-- **C4.** For a list read returning `[d0 (authorized), d1 (unauthorized)]`,
the claim says strict mode yields `FORBIDDEN` and lenient mode redacts
`d1` in place; for a single-document read, a failure yields `FORBIDDEN`.
Instead `internals.verifyScope` throws a `TypeError` while evaluating the
unauthorized document's scope, `enforceDocumentScopePostForModel` has no
try/catch around the call, and the exception propagates in all these
cases: no forbidden error, no redaction. -/
theorem post_read_throws_instead_of_forbidden_or_redaction :
    enforceDocumentScopePost "get" (.docList [openDoc, adminDoc]) [] true =
        .thrown .typeError ∧
      enforceDocumentScopePost "get" (.docList [openDoc, adminDoc]) [] false =
        .thrown .typeError ∧
      enforceDocumentScopePost "get" (.docList [openDoc, adminDoc]) [] false ≠
        .proceedRedacted [.real openDoc, .scopeErrorPlaceholder] ∧
      enforceDocumentScopePost "get" (.single adminDoc) [] true = .thrown .typeError ∧
      enforceDocumentScopePost "get" (.single adminDoc) [] false = .thrown .typeError := by
  decide

/-- **C5.** A document whose effective scope list (the composition of the
global and the action-specific scope, `[]` as well when the whole policy
object is absent) is empty never blocks: for every caller scope set
(including the empty one), every action and either configuration flag,
verification authorizes the caller for that document. -/
theorem verifyScope_empty_effective_scope_authorizes (S : List String)
    (action : Action) (flag : Bool) (d : SDoc)
    (h : docEffectiveScope d action = []) :
    verifyScope S [d] action flag = .ok { authorized := true, unauthorizedDocs := [] } := by
  cases d with
  | mk i sc =>
    cases sc with
    | none => rfl
    | some p =>
      simp only [docEffectiveScope] at h
      simp [verifyScope, verifyScopeGo, h]

/-- Witness for **C5**: a caller with an empty scope set is authorized for a
document whose policy object is present but composes to an empty effective
scope. -/
theorem verifyScope_empty_effective_scope_authorizes_witness :
    docEffectiveScope ⟨"d9", some ⟨none, some [], none, none, none⟩⟩ .read = [] ∧
      verifyScope [] [⟨"d9", some ⟨none, some [], none, none, none⟩⟩] .read true =
        .ok { authorized := true, unauthorizedDocs := [] } :=
  ⟨by decide,
   verifyScope_empty_effective_scope_authorizes [] .read true
     ⟨"d9", some ⟨none, some [], none, none, none⟩⟩ (by decide)⟩

/-- **C6 counterexample.** The claim says the effective scope equals the
global list `G` concatenated with the action list `A` whenever `G` is
non-empty. For `G = [""]` (non-empty, but its first element is the falsy
empty string) and `A = ["x"]`, the source's `documentScope[0]` truthiness
test fails and the effective scope is `A` alone, not `G ++ A`. -/
theorem effectiveScope_nonempty_global_claim_false :
    effectiveScope [""] (some ["x"]) ≠ ([""] ++ ["x"]).map some ∧
      effectiveScope [""] (some ["x"]) = [some "x"] := by
  decide

/-- **C6 amended.** The effective scope equals `G ++ A` exactly when `G`'s
first element exists and is a non-empty (truthy) string; otherwise — `G`
empty, or `G` headed by the empty string — it is `A` alone. -/
theorem effectiveScope_composition_characterization (G A : List String) :
    effectiveScope G (some A) =
      match G with
      | [] => A.map some
      | g0 :: _ => if g0 = "" then A.map some else (G ++ A).map some := by
  cases G with
  | nil => rfl
  | cons g0 gs => by_cases h : g0 = "" <;> simp [effectiveScope, h]

/-- **C2.** The claim says no successful MANY_MANY operation leaves a
linking entry on one side only. It does: `_setAssociation` finishes with
`Q.all(ownerObject.save(), childObject.save())`, which passes the child
save as an ignored second argument, so when the child save fails and the
owner save succeeds, `addOne` still resolves `true` while the persisted
owner carries the linking entry and the persisted child does not. -/
theorem addOne_child_save_failure_reports_success_one_sided :
    addOne ownerModelEx childModelEx "o1" "c1" "children" (some [("f", "v")])
        [("child", "c1")] (stateEx "o1" ["c1"] 7) =
      (.resolvedTrue,
       ⟨[("owner", [⟨"o1", [("children", [⟨7, "c1", [("f", "v")]⟩])], []⟩]),
         ("child", [⟨"c1", [("owners", [])], []⟩])], 9⟩) := by
  decide

/-- A store in which owner `o1` and child `c1` are already linked (entry
ids 5 and 6). -/
def linkedStateEx : AState :=
  ⟨[("owner", [⟨"o1", [("children", [⟨5, "c1", []⟩])], []⟩]),
    ("child", [⟨"c1", [("owners", [⟨6, "o1", []⟩])], []⟩])], 10⟩

/-- **C9.** The claim says `addOne`/`removeOne` report failure whenever
either save fails. `_removeOne` never returns the `_removeAssociation`
promise, so it fulfills as soon as the owner lookup does: here the owner
save is rejected (its linking entry stays persisted) while the child save
succeeds (its entry is gone), yet `removeOne` fulfills instead of
reporting the failure. -/
theorem removeOne_save_failure_still_fulfills :
    removeOne ownerModelEx childModelEx "o1" "c1" "children" [("owner", "o1")]
        linkedStateEx =
      (.resolvedUndef,
       ⟨[("owner", [⟨"o1", [("children", [⟨5, "c1", []⟩])], []⟩]),
         ("child", [⟨"c1", [("owners", [])], []⟩])], 10⟩) := by
  decide

/-- The store and in-memory state after one successful
`addOne("o1", "c1", "children", fields)` starting from `stateEx` with id
counter `n`: one linking entry on each side, entry ids `n` and `n + 1`. -/
def afterFirstAdd (fields : List (String × String)) (n : Nat) : AState :=
  ⟨[("owner", [⟨"o1", [("children", [⟨n, "c1", fields⟩])], []⟩]),
    ("child", [⟨"c1", [("owners", [⟨n + 1, "o1", fields⟩])], []⟩])], n + 2⟩

/-- **C7.** For every extra-field list and id counter: the first `addOne`
creates exactly one linking entry on each side (ids `n` and `n + 1`), and a
second `addOne` with the same extra fields succeeds, leaves the state
unchanged — still exactly one entry per side — and in particular preserves
both internal entry ids (the duplicate branch copies
`ownerObject[associationName][duplicateIndex]._id` onto the replacement
payload). -/
theorem addOne_twice_one_entry_each_side_id_preserved
    (fields : List (String × String)) (n : Nat) :
    addOne ownerModelEx childModelEx "o1" "c1" "children" (some fields) []
        (stateEx "o1" ["c1"] n) = (.resolvedTrue, afterFirstAdd fields n) ∧
      addOne ownerModelEx childModelEx "o1" "c1" "children" (some fields) []
        (afterFirstAdd fields n) = (.resolvedTrue, afterFirstAdd fields n) := by
  constructor <;>
    simp [addOne, setAssociation, dbFind, dbSave, trySave, setArray,
      findChildAssociationSet, stateEx, afterFirstAdd, ownerModelEx, childModelEx,
      ownerDocEx, childDocEx, List.lookup, List.filter, List.indexOf_cons_self,
      handleError]

/-- **C8.** `addMany` normalizes both payload shapes to child ids and links
them sequentially in input order against the shared owner record: for child
ids `[x, y]` the owner's association array ends with exactly one entry for
`x` and one for `y` in that creation order (both for a plain id payload and
for a record payload carrying extra fields), and it is not atomic — when
the middle child `z` of `[x, z, y]` does not exist, its link rejects, the
chain's deferred is abandoned (the promise never settles), `y` is never
linked, and `x`'s already persisted links remain. -/
theorem addMany_sequential_in_order_not_atomic :
    addMany ownerModelEx childModelEx "o1" "children" (.ids ["x", "y"]) []
        (stateEx "o1" ["x", "y"] 0) =
      (.resolvedTrue,
       ⟨[("owner", [⟨"o1", [("children", [⟨0, "x", []⟩, ⟨2, "y", []⟩])], []⟩]),
         ("child", [⟨"x", [("owners", [⟨1, "o1", []⟩])], []⟩,
                    ⟨"y", [("owners", [⟨3, "o1", []⟩])], []⟩])], 4⟩) ∧
      addMany ownerModelEx childModelEx "o1" "children"
        (.recs [("x", [("a", "1")]), ("y", [("b", "2")])]) []
        (stateEx "o1" ["x", "y"] 0) =
      (.resolvedTrue,
       ⟨[("owner", [⟨"o1", [("children",
            [⟨0, "x", [("a", "1")]⟩, ⟨2, "y", [("b", "2")]⟩])], []⟩]),
         ("child", [⟨"x", [("owners", [⟨1, "o1", [("a", "1")]⟩])], []⟩,
                    ⟨"y", [("owners", [⟨3, "o1", [("b", "2")]⟩])], []⟩])], 4⟩) ∧
      addMany ownerModelEx childModelEx "o1" "children" (.ids ["x", "z", "y"]) []
        (stateEx "o1" ["x", "y"] 0) =
      (.hang,
       ⟨[("owner", [⟨"o1", [("children", [⟨0, "x", []⟩])], []⟩]),
         ("child", [⟨"x", [("owners", [⟨1, "o1", []⟩])], []⟩,
                    ⟨"y", [("owners", [])], []⟩])], 2⟩) := by
  decide

end RestHapi
